import Mathlib

/-!
Verification of the travis-worker daemon entry point
(cmd/travis-worker/main.go) against its specification.

Strings are embedded as lists of characters; Go maps of strings are
embedded as association lists whose insert operation replaces the value
of an existing key in place and otherwise appends a fresh entry, which
matches the observable contents of a Go map (lookup, key set, size).
-/

/-- Embedding of Go strings.ToUpper restricted to the character map. -/
def goToUpper (s : List Char) : List Char := s.map Char.toUpper

/-- Embedding of Go strings.ToLower restricted to the character map. -/
def goToLower (s : List Char) : List Char := s.map Char.toLower

/-- Embedding of Go strings.HasPrefix: goHasPfx s p is true when s starts
with p. -/
def goHasPfx : List Char → List Char → Bool
  | _, [] => true
  | [], _ :: _ => false
  | c :: cs, p :: ps => if c = p then goHasPfx cs ps else false

/-- Embedding of Go strings.TrimPrefix. -/
def goTrimPfx (s pre : List Char) : List Char :=
  if goHasPfx s pre then s.drop pre.length else s

/-- Embedding of Go strings.SplitN(e, sep-char, 2): the part before the
first separator, and, when a separator occurs, the part after it. -/
def splitAtFirst : List Char → Char → List Char × Option (List Char)
  | [], _ => ([], none)
  | c :: cs, sep =>
    if c = sep then ([], some cs)
    else
      let r := splitAtFirst cs sep
      (c :: r.1, r.2)

/-- The environment-variable name space searched by
ProviderConfigFromEnviron: the literal TRAVIS_WORKER_, the upper-cased
provider name, and an underscore (main.go line 141). -/
def workerPfx (providerName : List Char) : List Char :=
  "TRAVIS_WORKER_".toList ++ goToUpper providerName ++ ['_']

/-- Go map of strings to strings, as an association list with unique keys. -/
abbrev GoMap := List (List Char × List Char)

/-- Whether a Go map holds the key. -/
def mapHasKey (m : GoMap) (k : List Char) : Bool :=
  m.any (fun p => decide (p.1 = k))

/-- Go map assignment m[k] = v: replace the value of an existing key,
otherwise add a fresh entry. -/
def mapInsert : GoMap → List Char → List Char → GoMap
  | [], k, v => [(k, v)]
  | p :: m, k, v => if p.1 = k then (k, v) :: m else p :: mapInsert m k v

/-- Go map read m[k]. -/
def mapLookup (m : GoMap) (k : List Char) : Option (List Char) :=
  (m.find? (fun p => decide (p.1 = k))).map Prod.snd

/-- The key the loop body of ProviderConfigFromEnviron derives from an
environment entry: the part before the first equals sign, with the
search space stripped when it is a prefix of that part, lower-cased
(main.go line 148). -/
def entryKey (pre e : List Char) : List Char :=
  goToLower (goTrimPfx (splitAtFirst e '=').1 pre)

/-- The value the loop body stores: everything after the first equals
sign, verbatim (main.go line 150). -/
def entryVal (e : List Char) : List Char := ((splitAtFirst e '=').2).getD []

/-- The loop of ProviderConfigFromEnviron over the remaining environment
entries, with the map built so far. An entry that matches the search
space but holds no equals sign makes Go index pair[1] out of range
(a crash), embedded as none. -/
def pcfeGo (pre : List Char) : GoMap → List (List Char) → Option GoMap
  | acc, [] => some acc
  | acc, e :: rest =>
    if goHasPfx e pre then
      match (splitAtFirst e '=').2 with
      | some v => pcfeGo pre (mapInsert acc (entryKey pre e) v) rest
      | none => none
    else pcfeGo pre acc rest

/-- Embedding of ProviderConfigFromEnviron (main.go lines 140 to 155), with
the process environment os.Environ() made an explicit argument. -/
def ProviderConfigFromEnviron (environ : List (List Char))
    (providerName : List Char) : Option GoMap :=
  pcfeGo (workerPfx providerName) [] environ

/-- The environment entries whose whole NAME=value string starts with the
search space (the entries the loop keeps). -/
def matchingEntries (environ : List (List Char)) (pre : List Char) :
    List (List Char) :=
  environ.filter (fun e => goHasPfx e pre)

/-- Claim C1 as stated: the returned map has exactly one entry per matching
environment variable, keyed by the stripped lower-cased name, holding the
text after the first equals sign of that same variable. -/
def C1ClaimStatement (environ : List (List Char)) (providerName : List Char) :
    Prop :=
  ∃ m, ProviderConfigFromEnviron environ providerName = some m ∧
    m.length = (matchingEntries environ (workerPfx providerName)).length ∧
    ∀ e ∈ matchingEntries environ (workerPfx providerName),
      mapLookup m (entryKey (workerPfx providerName) e) = some (entryVal e)

/-- The value the last matching environment entry with the given derived
key stores (none when no matching entry has that key). -/
def specLastVal (pre : List Char) (environ : List (List Char))
    (k : List Char) : Option (List Char) :=
  ((matchingEntries environ pre).reverse.find?
    (fun e => decide (entryKey pre e = k))).map entryVal

/-- First-some choice on options. -/
def oget : Option (List Char) → Option (List Char) → Option (List Char)
  | some v, _ => some v
  | none, o => o

/-- A concrete process environment on which the claim as stated fails: two
matching variables whose names differ only in letter case collide after
lower-casing, so the map holds one entry, not one per variable. -/
def cexEnviron : List (List Char) :=
  ["TRAVIS_WORKER_FOO_A=1".toList, "TRAVIS_WORKER_FOO_a=2".toList]

/-! Signal handling of runWorker (main.go lines 118 to 129): the goroutine
receives one signal from the channel, then branches on whether it is
SIGINT. -/

/-- The two signals the worker subscribes to (main.go line 119). -/
inductive OsSignal where
  | SIGINT
  | SIGTERM
deriving DecidableEq

/-- The observable shutdown side of runWorker: whether
pool.GracefulShutdown() has been called, whether the top-level cancel()
has been called, and the log lines written. -/
structure ShutdownState where
  gracefulRequested : Bool
  cancelled : Bool
  logLines : List (List Char)
deriving DecidableEq

/-- The state before any signal arrives. -/
def initShutdownState : ShutdownState :=
  { gracefulRequested := false, cancelled := false, logLines := [] }

/-- The body of the signal goroutine applied to the one received signal
(main.go lines 121 to 128): SIGINT logs a line naming SIGTERM and invokes
pool.GracefulShutdown(); any other subscribed signal (so SIGTERM) logs a
line naming SIGINT and invokes cancel(). -/
def handleSignal (st : ShutdownState) (sig : OsSignal) : ShutdownState :=
  if sig = OsSignal.SIGINT then
    { st with
      logLines := st.logLines ++
        ["SIGTERM received, starting graceful shutdown".toList],
      gracefulRequested := true }
  else
    { st with
      logLines := st.logLines ++
        ["SIGINT received, shutting down immediately".toList],
      cancelled := true }

/-- The whole signal goroutine over the sequence of signals delivered to
the channel: it performs one receive, handles that signal, and returns,
so every later signal is ignored. -/
def signalGoroutine (st : ShutdownState) : List OsSignal → ShutdownState
  | [] => st
  | sig :: _ => handleSignal st sig

/-! The AMQP close-notification goroutine (main.go lines 86 to 95): it
receives once from the NotifyClose channel; a delivered error value means
the connection was lost and cancel() is called; a closed channel with no
value (the local clean close) does nothing. -/

/-- An AMQP connection error value as delivered by NotifyClose. -/
structure AmqpError where
  code : Int
  reason : List Char
deriving DecidableEq

/-- What the close-notification goroutine did: whether cancel() was
invoked, and the log lines written. -/
structure CloseWatchResult where
  cancelled : Bool
  logLines : List (List Char)
deriving DecidableEq

/-- The close-notification goroutine (main.go lines 86 to 95), applied to
what the one channel receive produced: some error when the connection
errored, none when the channel was closed without a value. -/
def watchConnectionClose (recv : Option AmqpError) : CloseWatchResult :=
  match recv with
  | some _ =>
    { cancelled := true,
      logLines := ["amqp connection errored, terminating".toList] }
  | none => { cancelled := false, logLines := [] }

/-! The main line of runWorker from the AMQP dial on (main.go lines 80 to
138), as the sequence of actions it performs, parameterised by whether
the dial succeeds, whether creating the backend provider succeeds, and
whether closing the connection at the end succeeds. -/

/-- One observable action of the main line of runWorker. -/
inductive RunAction where
  | dialAttempt
  | logError (msg : List Char)
  | newBuildScriptGenerator
  | newProvider
  | newCommandDispatcher
  | newProcessorPool
  | poolRun
  | amqpClose
deriving DecidableEq

/-- The sequence of actions runWorker performs from the dial to its
return (main.go lines 80 to 138): a failed dial logs and returns at
once; a failed provider construction logs and returns; otherwise the
dispatcher and pool are built, pool.Run blocks until it returns, and
only then is the connection closed, logging when the close fails. -/
def runWorkerTrace (dialOk providerOk closeOk : Bool) : List RunAction :=
  if dialOk = false then
    [RunAction.dialAttempt, RunAction.logError "couldn't connect to AMQP".toList]
  else
    [RunAction.dialAttempt, RunAction.newBuildScriptGenerator,
      RunAction.newProvider] ++
    (if providerOk = false then
      [RunAction.logError "couldn't create backend provider".toList]
    else
      [RunAction.newCommandDispatcher, RunAction.newProcessorPool,
        RunAction.poolRun, RunAction.amqpClose] ++
      (if closeOk = false then
        [RunAction.logError "couldn't close AMQP connection cleanly".toList]
      else []))

/-! The Sentry hook setup (main.go lines 63 to 70): with a non-empty DSN
the hook is created; a creation error is logged, and the hook — nil in
that case — is added to the global logger either way. -/

/-- What the Sentry setup block did: the log lines written, the arguments
of the AddHook calls made (none stands for the nil hook a failed
constructor returns), and whether startup continued past the block. -/
structure SentrySetupResult where
  logLines : List (List Char)
  hooksAdded : List (Option Unit)
  startupContinues : Bool
deriving DecidableEq

/-- The Sentry setup block (main.go lines 63 to 70), applied to the result
of NewSentryHook: none when construction succeeded (some hook is
returned), or some error message. AddHook is invoked outside the error
check, so it runs in both cases; the block never returns early. -/
def setupSentryHook (sentryDSN : List Char)
    (hookErr : Option (List Char)) : SentrySetupResult :=
  if sentryDSN = [] then
    { logLines := [], hooksAdded := [], startupContinues := true }
  else
    match hookErr with
    | some _ =>
      { logLines := ["couldn't create sentry hook".toList],
        hooksAdded := [none], startupContinues := true }
    | none =>
      { logLines := [], hooksAdded := [some ()], startupContinues := true }

/-! The lib package exercised by TestQueue (Payload, JobPayload,
TestMessageBroker, Queue) is not part of the sources at hand; it is
modelled from the specification: the queue wire format (a structured
document with a nested job object), the broker adapter contract
(declare, publish, subscribe, close), and the job queue semantics. -/

/-- Modelled from the spec: the job half of the queue wire format, the Job
Payload with its integer id and string build number. -/
structure JobPayload where
  ID : Int
  Number : List Char
deriving DecidableEq

/-- Modelled from the spec: the unit of work pulled from the queue, a
document with a nested job object. -/
structure Payload where
  Job : JobPayload
deriving DecidableEq

/-- Modelled from the spec: a structured document as carried on the queue
wire (numbers, strings, and string-keyed objects suffice for the job
payload format). -/
inductive Json where
  | num (n : Int)
  | str (s : List Char)
  | obj (fields : List (List Char × Json))

/-- Field access in a document object. -/
def jsonField (fields : List (List Char × Json)) (k : List Char) :
    Option Json :=
  (fields.find? (fun p => decide (p.1 = k))).map Prod.snd

/-- Modelled from the spec: payload decoding, total-or-nothing — the
document must be an object with a job object holding an integer id and a
string number; unrecognized fields are ignored; anything else is a
decode failure. -/
def decodePayload (doc : Json) : Option Payload :=
  match doc with
  | Json.obj fields =>
    match jsonField fields "job".toList with
    | some (Json.obj jf) =>
      match jsonField jf "id".toList, jsonField jf "number".toList with
      | some (Json.num i), some (Json.str s) =>
        some { Job := { ID := i, Number := s } }
      | _, _ => none
    | _ => none
  | _ => none

/-- Modelled from the spec: the in-memory test message broker of the lib
package, a durable pub/sub transport with declared queues, buffered
messages, and close and connection-loss indications. -/
structure TestMessageBroker where
  queues : List (List Char)
  messages : List (List Char × Json)
  closed : Bool
  connectionLost : Bool

/-- Modelled from the spec: a fresh broker with no queues or messages. -/
def NewTestMessageBroker : TestMessageBroker :=
  { queues := [], messages := [], closed := false, connectionLost := false }

/-- Modelled from the spec: declare and bind a queue. -/
def DeclareQueue (mb : TestMessageBroker) (name : List Char) :
    TestMessageBroker :=
  { mb with queues := mb.queues ++ [name] }

/-- Modelled from the spec: publish on the default exchange, routed to the
queue named by the routing key when it is declared. The message type tag
is carried but irrelevant to routing. -/
def Publish (mb : TestMessageBroker) (exchange routingKey tag : List Char)
    (payload : Json) : TestMessageBroker :=
  if mb.queues.any (fun q => decide (q = routingKey)) then
    { mb with messages := mb.messages ++ [(routingKey, payload)] }
  else mb

/-- Modelled from the spec: close the broker locally; the subscription
sequence then ends cleanly, as distinct from a lost connection. -/
def CloseBroker (mb : TestMessageBroker) : TestMessageBroker :=
  { mb with closed := true }

/-- What a subscription produced: the payloads delivered to processors
obtained from the factory, in order, and the error the sequence ended
with (none for a clean end). -/
structure SubscribeOutcome where
  received : List Payload
  endError : Option (List Char)
deriving DecidableEq

/-- Modelled from the spec: subscribe on a queue; each buffered message
for the queue is decoded and the payload handed to a processor from the
factory; the sequence ends with no error when the broker closed locally,
and with a connection error when the connection was lost. -/
def Subscribe (mb : TestMessageBroker) (queueName : List Char) :
    SubscribeOutcome :=
  { received :=
      (mb.messages.filter (fun m => decide (m.1 = queueName))).filterMap
        (fun m => decodePayload m.2),
    endError :=
      if mb.connectionLost then some "connection lost".toList else none }

/-- The document published by TestQueue (main.go line 188). -/
def testJobDoc : Json :=
  Json.obj [("job".toList,
    Json.obj [("id".toList, Json.num 12345),
              ("number".toList, Json.str "1".toList)])]

/-- The TestQueue scenario (main.go lines 182 to 193): declare builds.linux,
publish the job document, close the broker, then subscribe. -/
def testQueueScenario : SubscribeOutcome :=
  Subscribe
    (CloseBroker
      (Publish (DeclareQueue NewTestMessageBroker "builds.linux".toList)
        [] "builds.linux".toList "test".toList testJobDoc))
    "builds.linux".toList

/-! Deliveries and the acknowledgment discipline. The Job Queue and
Processor implementations are not part of the sources at hand; they are
modelled from the specification: the Processor state machine of section
4.3 and the acknowledgment policy of section 4.2. -/

/-- Modelled from the spec: the Processor states. -/
inductive PState where
  | Created
  | AcquiringEnvironment
  | Running
  | Finalizing
  | Terminated
deriving DecidableEq

/-- Modelled from the spec: the terminal outcomes a Processor reports. -/
inductive Outcome where
  | success
  | failure
  | timeout
  | cancelled
  | infraError
deriving DecidableEq

/-- An observable event in the lifetime of one delivery: the bound
Processor entering a state, or the delivery being acknowledged or
rejected. -/
inductive DEvent where
  | enter (s : PState)
  | ack
  | rejectRequeue
  | rejectDrop
deriving DecidableEq

/-- Modelled from the spec: the state sequence of a Processor for each
outcome — an environment-acquisition failure goes straight to Terminated,
every other outcome passes through Running and Finalizing. -/
def processorStates : Outcome → List PState
  | Outcome.infraError =>
    [PState.Created, PState.AcquiringEnvironment, PState.Terminated]
  | _ =>
    [PState.Created, PState.AcquiringEnvironment, PState.Running,
      PState.Finalizing, PState.Terminated]

/-- Modelled from the spec: the acknowledgment policy — ack on success,
expected failure, timeout and cancellation (the job consumed its run);
reject with requeue on an infrastructure error. -/
def ackFor : Outcome → DEvent
  | Outcome.infraError => DEvent.rejectRequeue
  | _ => DEvent.ack

/-- Modelled from the spec: the full event trace of one delivery — the
Processor runs through its states, and exactly then is the one
acknowledgment or rejection issued. -/
def deliveryLifecycle (o : Outcome) : List DEvent :=
  (processorStates o).map DEvent.enter ++ [ackFor o]

/-- Whether an event acknowledges or rejects the delivery. -/
def isAckEvent : DEvent → Bool
  | DEvent.enter _ => false
  | _ => true

/-- How many acknowledge-or-reject events a trace holds. -/
def ackEventsCount (tr : List DEvent) : Nat := (tr.filter isAckEvent).length

/-- Whether every acknowledge-or-reject event of the trace comes after the
Processor entered Terminated. -/
def acksAfterTerminated (tr : List DEvent) : Bool :=
  (List.range tr.length).all fun i =>
    !(isAckEvent (tr.getD i (DEvent.enter PState.Created))) ||
      (tr.take i).any (fun x => decide (x = DEvent.enter PState.Terminated))

/-! The Processor Pool bound. The pool implementation is not part of the
sources at hand; it is modelled from the specification: poolSize
concurrent slots, each claiming a pending job only when a slot is free
and releasing it when the Processor terminates. -/

/-- The pool scheduling state: jobs not yet claimed, and Processors in a
non-terminal state (occupied slots). -/
structure PoolState where
  pending : Nat
  active : Nat
deriving DecidableEq

/-- Modelled from the spec: one scheduling step of the Processor Pool — a
free slot claims a pending job only while fewer than poolSize Processors
are active, or an active Processor terminates and frees its slot. -/
inductive PoolStep (poolSize : Nat) : PoolState → PoolState → Prop where
  | claim (s : PoolState) (hslot : s.active < poolSize) (hjob : 0 < s.pending) :
      PoolStep poolSize s { pending := s.pending - 1, active := s.active + 1 }
  | finish (s : PoolState) (hact : 0 < s.active) :
      PoolStep poolSize s { pending := s.pending, active := s.active - 1 }

/-- The pool states reachable from jobs pending and no slot occupied. -/
def PoolReach (poolSize jobs : Nat) (s : PoolState) : Prop :=
  Relation.ReflTransGen (PoolStep poolSize) { pending := jobs, active := 0 } s

theorem oget_none_right (x : Option (List Char)) : oget x none = x := by
  cases x <;> rfl

theorem mapHasKey_iff (m : GoMap) (k : List Char) :
    mapHasKey m k = true ↔ k ∈ m.map Prod.fst := by
  simp [mapHasKey, List.any_eq_true, List.mem_map]

theorem mapLookup_cons (p : List Char × List Char) (m : GoMap)
    (k' : List Char) :
    mapLookup (p :: m) k' = if p.1 = k' then some p.2 else mapLookup m k' := by
  by_cases h : p.1 = k' <;> simp [mapLookup, List.find?, h]

theorem mapLookup_insert (m : GoMap) (k v k' : List Char) :
    mapLookup (mapInsert m k v) k' =
      if k' = k then some v else mapLookup m k' := by
  induction m with
  | nil =>
    by_cases hk : k' = k
    · simp [mapInsert, mapLookup, List.find?, hk]
    · have hkk : ¬ k = k' := fun h => hk h.symm
      simp [mapInsert, mapLookup, List.find?, hk, hkk]
  | cons p m ih =>
    by_cases hpk : p.1 = k
    · rw [mapInsert, if_pos hpk, mapLookup_cons, mapLookup_cons]
      by_cases hk : k' = k
      · simp [hk]
      · have hkk : ¬ k = k' := fun h => hk h.symm
        simp [hpk, hk, hkk]
    · rw [mapInsert, if_neg hpk, mapLookup_cons, mapLookup_cons, ih]
      by_cases hpk' : p.1 = k'
      · have hk : ¬ k' = k := fun h => hpk (h ▸ hpk')
        simp [hpk', hk]
      · simp [hpk']

theorem keys_insert (m : GoMap) (k v : List Char) :
    (mapInsert m k v).map Prod.fst =
      if mapHasKey m k then m.map Prod.fst else m.map Prod.fst ++ [k] := by
  induction m with
  | nil => simp [mapInsert, mapHasKey]
  | cons p m ih =>
    by_cases hpk : p.1 = k
    · rw [mapInsert, if_pos hpk]
      simp [mapHasKey, hpk]
    · rw [mapInsert, if_neg hpk]
      have : mapHasKey (p :: m) k = mapHasKey m k := by
        simp [mapHasKey, hpk]
      rw [this]
      cases h : mapHasKey m k <;> simp [ih, h]

theorem mem_keys_insert (m : GoMap) (k v k' : List Char) :
    k' ∈ (mapInsert m k v).map Prod.fst ↔
      k' = k ∨ k' ∈ m.map Prod.fst := by
  rw [keys_insert]
  cases h : mapHasKey m k
  · simp [or_comm]
  · simp only [if_true]
    constructor
    · exact Or.inr
    · rintro (rfl | hm)
      · exact (mapHasKey_iff m k').mp h
      · exact hm

theorem nodup_keys_insert (m : GoMap) (k v : List Char)
    (h : ((m.map Prod.fst)).Nodup) :
    ((mapInsert m k v).map Prod.fst).Nodup := by
  rw [keys_insert]
  cases hh : mapHasKey m k
  · have hk : k ∉ m.map Prod.fst := fun hm =>
      by rw [(mapHasKey_iff m k).mpr hm] at hh; cases hh
    refine List.Nodup.append h (List.nodup_singleton k) ?_
    intro a ha hb
    rw [List.mem_singleton] at hb
    exact hk (hb ▸ ha)
  · exact h

theorem oget_map (a b : Option (List Char)) (f : List Char → List Char) :
    (oget a b).map f = oget (a.map f) (b.map f) := by
  cases a <;> rfl

theorem find?_append_single (l : List (List Char)) (e : List Char)
    (p : List Char → Bool) :
    (l ++ [e]).find? p =
      oget (l.find? p) (if p e then some e else none) := by
  induction l with
  | nil =>
    cases h : p e <;> simp [List.find?, h, oget]
  | cons a l ih =>
    cases h : p a <;> simp [List.find?, h, oget, ih]

theorem matchingEntries_cons_pos (e : List Char) (rest : List (List Char))
    (pre : List Char) (h : goHasPfx e pre = true) :
    matchingEntries (e :: rest) pre = e :: matchingEntries rest pre := by
  simp [matchingEntries, List.filter_cons, h]

theorem matchingEntries_cons_neg (e : List Char) (rest : List (List Char))
    (pre : List Char) (h : goHasPfx e pre = false) :
    matchingEntries (e :: rest) pre = matchingEntries rest pre := by
  simp [matchingEntries, List.filter_cons, h]

theorem specLastVal_cons_pos (pre e : List Char) (rest : List (List Char))
    (k : List Char) (h : goHasPfx e pre = true) :
    specLastVal pre (e :: rest) k =
      oget (specLastVal pre rest k)
        (if entryKey pre e = k then some (entryVal e) else none) := by
  unfold specLastVal
  rw [matchingEntries_cons_pos e rest pre h, List.reverse_cons,
    find?_append_single, oget_map]
  by_cases hk : entryKey pre e = k <;> simp [hk]

theorem specLastVal_cons_neg (pre e : List Char) (rest : List (List Char))
    (k : List Char) (h : goHasPfx e pre = false) :
    specLastVal pre (e :: rest) k = specLastVal pre rest k := by
  unfold specLastVal
  rw [matchingEntries_cons_neg e rest pre h]

theorem pcfeGo_spec (pre : List Char) (environ : List (List Char)) :
    ∀ acc : GoMap,
    (∀ e ∈ environ, ((splitAtFirst e '=').2).isSome = true) →
    (acc.map Prod.fst).Nodup →
    ∃ m, pcfeGo pre acc environ = some m ∧
      (m.map Prod.fst).Nodup ∧
      (∀ k, k ∈ m.map Prod.fst ↔
        k ∈ acc.map Prod.fst ∨
        k ∈ (matchingEntries environ pre).map (entryKey pre)) ∧
      (∀ k, mapLookup m k =
        oget (specLastVal pre environ k) (mapLookup acc k)) := by
  induction environ with
  | nil =>
    intro acc _ hnd
    refine ⟨acc, rfl, hnd, fun k => ?_, fun k => ?_⟩
    · simp [matchingEntries]
    · simp [specLastVal, matchingEntries, oget]
  | cons e rest ih =>
    intro acc hall hnd
    have hrest : ∀ x ∈ rest, ((splitAtFirst x '=').2).isSome = true :=
      fun x hx => hall x (List.mem_cons_of_mem e hx)
    cases hm : goHasPfx e pre
    · obtain ⟨m, h1, h2, h3, h4⟩ := ih acc hrest hnd
      refine ⟨m, ?_, h2, fun k => ?_, fun k => ?_⟩
      · rw [pcfeGo, hm]
        exact h1
      · rw [h3 k, matchingEntries_cons_neg e rest pre hm]
      · rw [h4 k, specLastVal_cons_neg pre e rest k hm]
    · have he : ((splitAtFirst e '=').2).isSome = true :=
        hall e (List.mem_cons_self e rest)
      obtain ⟨v, hv⟩ := Option.isSome_iff_exists.mp he
      have hev : entryVal e = v := by simp [entryVal, hv]
      obtain ⟨m, h1, h2, h3, h4⟩ :=
        ih (mapInsert acc (entryKey pre e) v) hrest
          (nodup_keys_insert acc (entryKey pre e) v hnd)
      refine ⟨m, ?_, h2, fun k => ?_, fun k => ?_⟩
      · rw [pcfeGo, hm, hv]
        exact h1
      · rw [h3 k, mem_keys_insert,
          matchingEntries_cons_pos e rest pre hm]
        simp only [List.map_cons, List.mem_cons]
        tauto
      · rw [h4 k, mapLookup_insert,
          specLastVal_cons_pos pre e rest k hm, hev]
        cases hA : specLastVal pre rest k
        · by_cases hk : k = entryKey pre e
          · simp [oget, hk]
          · have hk2 : ¬ entryKey pre e = k := fun h => hk h.symm
            simp [oget, hk, hk2]
        · simp [oget]

/-- Claim C1, amended: for every provider name and every process
environment whose entries all contain an equals sign,
ProviderConfigFromEnviron returns a map with exactly one entry per
distinct derived key (the part of the name before the first equals sign,
stripped of the search space and lower-cased) among the matching
variables; the entry holds, verbatim, the text after the first equals
sign of the last matching variable that produces the key. -/
theorem C1_amended (environ : List (List Char)) (providerName : List Char)
    (h : ∀ e ∈ environ, ((splitAtFirst e '=').2).isSome = true) :
    ∃ m, ProviderConfigFromEnviron environ providerName = some m ∧
      (m.map Prod.fst).Nodup ∧
      (∀ k, k ∈ m.map Prod.fst ↔
        k ∈ (matchingEntries environ (workerPfx providerName)).map
          (entryKey (workerPfx providerName))) ∧
      (∀ k, mapLookup m k = specLastVal (workerPfx providerName) environ k) := by
  obtain ⟨m, h1, h2, h3, h4⟩ :=
    pcfeGo_spec (workerPfx providerName) environ [] h (by simp)
  refine ⟨m, h1, h2, fun k => ?_, fun k => ?_⟩
  · rw [h3 k]
    simp
  · rw [h4 k]
    have : mapLookup [] k = none := rfl
    rw [this, oget_none_right]

/-- Claim C1, counterexample: on the environment cexEnviron with provider
name foo, the claim as stated fails, because the two matching variables
collide on the lower-cased key and the map keeps a single entry. -/
theorem C1_counterexample : ¬ C1ClaimStatement cexEnviron "foo".toList := by
  rintro ⟨m, hm, hlen, -⟩
  have h0 : ProviderConfigFromEnviron cexEnviron "foo".toList =
      some [("a".toList, "2".toList)] := by decide
  rw [h0] at hm
  have hmm : m = [("a".toList, "2".toList)] := (Option.some.inj hm).symm
  rw [hmm] at hlen
  have h2 : (matchingEntries cexEnviron (workerPfx "foo".toList)).length = 2 :=
    by decide
  rw [h2] at hlen
  exact absurd hlen (by decide)

/-- Claim C1, witness for the amended theorem: the amended statement applied
to the counterexample environment itself. -/
theorem C1_amended_witness :
    (∀ e ∈ cexEnviron, ((splitAtFirst e '=').2).isSome = true) ∧
    (∃ m, ProviderConfigFromEnviron cexEnviron "foo".toList = some m ∧
      (m.map Prod.fst).Nodup ∧
      (∀ k, k ∈ m.map Prod.fst ↔
        k ∈ (matchingEntries cexEnviron (workerPfx "foo".toList)).map
          (entryKey (workerPfx "foo".toList))) ∧
      (∀ k, mapLookup m k = specLastVal (workerPfx "foo".toList) cexEnviron k)) :=
  ⟨by decide, C1_amended cexEnviron "foo".toList (by decide)⟩

/-- Claim C2: a SIGINT triggers graceful shutdown (GracefulShutdown is
invoked, cancel is not) while logging a line that names SIGTERM, and a
SIGTERM triggers immediate shutdown (cancel is invoked, GracefulShutdown
is not) while logging a line that names SIGINT. -/
theorem signal_handling_swapped_labels :
    handleSignal initShutdownState OsSignal.SIGINT =
      { gracefulRequested := true, cancelled := false,
        logLines := ["SIGTERM received, starting graceful shutdown".toList] } ∧
    handleSignal initShutdownState OsSignal.SIGTERM =
      { gracefulRequested := false, cancelled := true,
        logLines := ["SIGINT received, shutting down immediately".toList] } :=
  ⟨rfl, rfl⟩

/-- Claim C10: the signal goroutine consumes exactly one signal, so the
outcome under any tail of further signals equals the outcome of the first
signal alone; in particular a graceful shutdown started by a first SIGINT
is never escalated to an immediate one by later signals. -/
theorem signal_goroutine_single_shot
    (sig : OsSignal) (rest : List OsSignal) (st : ShutdownState) :
    signalGoroutine st (sig :: rest) = signalGoroutine st [sig] ∧
    (signalGoroutine initShutdownState (OsSignal.SIGINT :: rest)).cancelled
      = false :=
  ⟨rfl, rfl⟩

/-- Claim C3: a delivered close-notification error triggers the top-level
cancellation (immediate shutdown of the pool), while a clean close of the
channel without an error value does not. -/
theorem connection_loss_cancels (e : AmqpError) :
    watchConnectionClose (some e) =
      { cancelled := true,
        logLines := ["amqp connection errored, terminating".toList] } ∧
    watchConnectionClose none = { cancelled := false, logLines := [] } :=
  ⟨rfl, rfl⟩

/-- Claim C5: in every run of runWorker, the connection close happens
exactly when the pool run does, and strictly after it; runWorker returns
only after both. -/
theorem close_after_pool_run (dialOk providerOk closeOk : Bool) :
    (RunAction.poolRun ∈ runWorkerTrace dialOk providerOk closeOk ↔
      RunAction.amqpClose ∈ runWorkerTrace dialOk providerOk closeOk) ∧
    (RunAction.amqpClose ∈ runWorkerTrace dialOk providerOk closeOk →
      (runWorkerTrace dialOk providerOk closeOk).indexOf RunAction.poolRun <
        (runWorkerTrace dialOk providerOk closeOk).indexOf
          RunAction.amqpClose) := by
  revert dialOk providerOk closeOk
  decide

/-- Claim C5, witness: on the all-success run, closing the connection
indeed happens and comes after the pool run. -/
theorem close_after_pool_run_witness :
    (RunAction.amqpClose ∈ runWorkerTrace true true true) ∧
    (runWorkerTrace true true true).indexOf RunAction.poolRun <
      (runWorkerTrace true true true).indexOf RunAction.amqpClose :=
  ⟨by decide, (close_after_pool_run true true true).2 (by decide)⟩

/-- Claim C6: when the dial fails, runWorker logs the error and returns at
once: no build-script generator, backend provider, command dispatcher or
processor pool is created, and the pool never runs. -/
theorem dial_failure_fatal (providerOk closeOk : Bool) :
    runWorkerTrace false providerOk closeOk =
      [RunAction.dialAttempt,
        RunAction.logError "couldn't connect to AMQP".toList] ∧
    RunAction.newBuildScriptGenerator ∉ runWorkerTrace false providerOk closeOk ∧
    RunAction.newProvider ∉ runWorkerTrace false providerOk closeOk ∧
    RunAction.newCommandDispatcher ∉ runWorkerTrace false providerOk closeOk ∧
    RunAction.newProcessorPool ∉ runWorkerTrace false providerOk closeOk ∧
    RunAction.poolRun ∉ runWorkerTrace false providerOk closeOk := by
  revert providerOk closeOk
  decide

/-- Claim C9: with a non-empty Sentry DSN, a failure to create the hook is
only logged; AddHook is still called, with the nil hook, and startup
continues. -/
theorem sentry_hook_added_on_error (dsn e : List Char) (h : ¬ dsn = []) :
    setupSentryHook dsn (some e) =
      { logLines := ["couldn't create sentry hook".toList],
        hooksAdded := [none], startupContinues := true } := by
  unfold setupSentryHook
  rw [if_neg h]

/-- Claim C9, witness: the theorem applied at a concrete DSN and error. -/
theorem sentry_hook_added_on_error_witness :
    setupSentryHook "https://sentry.example/42".toList (some "boom".toList) =
      { logLines := ["couldn't create sentry hook".toList],
        hooksAdded := [none], startupContinues := true } :=
  sentry_hook_added_on_error "https://sentry.example/42".toList
    "boom".toList (by decide)

/-- Claim C4: the TestQueue scenario delivers to the processor exactly one
Job Payload, with ID 12345 and Number 1 and nothing else populated, and
the subscription sequence ends cleanly with no error. -/
theorem test_queue_delivery :
    testQueueScenario =
      { received := [{ Job := { ID := 12345, Number := "1".toList } }],
        endError := none } := by
  decide

/-- Claim C7: over the lifetime of every delivery, exactly one acknowledge
or reject is issued — never both, never neither, never twice — and it is
issued only after the bound Processor terminates. -/
theorem delivery_acked_once_after_terminate (o : Outcome) :
    ackEventsCount (deliveryLifecycle o) = 1 ∧
    acksAfterTerminated (deliveryLifecycle o) = true := by
  cases o <;> exact ⟨rfl, rfl⟩

theorem poolReach_active_le (n jobs : Nat) (s : PoolState)
    (h : PoolReach n jobs s) : s.active ≤ n := by
  induction h with
  | refl => exact Nat.zero_le n
  | tail _ hstep ih =>
    cases hstep with
    | claim hslot hjob => exact hslot
    | finish hact => exact le_trans (Nat.sub_le _ 1) ih

theorem poolReach_all_claimed (n : Nat) :
    ∀ p a : Nat, a + p ≤ n →
      Relation.ReflTransGen (PoolStep n) { pending := p, active := a }
        { pending := 0, active := a + p } := by
  intro p
  induction p with
  | zero =>
    intro a _
    simpa using Relation.ReflTransGen.refl
      (a := ({ pending := 0, active := a } : PoolState))
  | succ p ih =>
    intro a h
    have h1 : a < n := by omega
    have step : PoolStep n { pending := p + 1, active := a }
        { pending := p, active := a + 1 } := by
      have h2 : PoolStep n { pending := p + 1, active := a }
          { pending := p + 1 - 1, active := a + 1 } :=
        PoolStep.claim { pending := p + 1, active := a } h1 (Nat.succ_pos p)
      simpa using h2
    have tl := ih (a + 1) (by omega)
    have reach := Relation.ReflTransGen.head step tl
    have harith : a + 1 + p = a + (p + 1) := by omega
    rw [harith] at reach
    exact reach

/-- Claim C8: every reachable pool state occupies at most poolSize slots,
and when the pending job count is at most poolSize there is a reachable
state in which all of them are active at the same time. -/
theorem pool_size_bound (n jobs : Nat) (s : PoolState)
    (h : PoolReach n jobs s) :
    s.active ≤ n ∧
    (jobs ≤ n → ∃ t, PoolReach n jobs t ∧ t.active = jobs ∧ t.pending = 0) := by
  refine ⟨poolReach_active_le n jobs s h, fun hle => ?_⟩
  refine ⟨{ pending := 0, active := jobs }, ?_, rfl, rfl⟩
  have reach := poolReach_all_claimed n jobs 0 (by omega)
  simpa [PoolReach] using reach

/-- Claim C8, witness: the theorem applied to the initial state of a pool
of size one with one pending job. -/
theorem pool_size_bound_witness :
    ({ pending := 1, active := 0 } : PoolState).active ≤ 1 ∧
    (1 ≤ 1 → ∃ t, PoolReach 1 1 t ∧ t.active = 1 ∧ t.pending = 0) :=
  pool_size_bound 1 1 { pending := 1, active := 0 }
    Relation.ReflTransGen.refl
